import Mathlib

/-!
Verification of the wcursorgen cursor build pipeline (`src/main.rs`).

The Rust program is shallowly embedded as follows.

* Strings are Lean `String`s; `str::split_ascii_whitespace` and `str::lines`
  are re-implemented below (`splitAsciiWhitespace`, `rustLines`).
* The machine integers `u16` and `u32` are embedded as `Nat`; the bounded
  behaviour of `str::parse::<u16>` / `str::parse::<u32>` (digit-by-digit
  accumulation with an overflow check against the type maximum) is modelled
  by `parseUint`.  `usize as u32` truncation is modelled as `% 2 ^ 32`.
* `HashMap<u16, Vec<FrameConfig>>` is embedded as the function
  `SizeMap := Nat → List FrameConfig`; the only observation the program makes
  of the map is `get`, and a key is present exactly when its list is
  non-empty (every insertion pushes one element), which `configGet` captures.
* File-system interaction is embedded with an oracle `FsEnv` deciding the
  outcome of each external operation, and a trace of `FsEvent`s recording, in
  order, which files the pipeline touched.  The image codec (`read_png`,
  `encode_as_png`, `Ani::encode`) is external to the repository, so decoded
  images are opaque `Nat` tokens supplied by the oracle.
* The `f32` arithmetic in the tick conversion is modelled exactly
  (`roundToF32`, `frameRate`): operands and the quotient are correctly
  rounded to the IEEE 754 binary32 grid with ties-to-even, and
  `f32::round` rounds half away from zero, whose value on the non-negative
  quotients at hand is Mathlib's `round` of the exact quotient value.  The
  spec's exact-arithmetic formula is kept alongside as `specTicks` for
  comparison.
* `PathBuf` values for `--output` are embedded as a parent part plus an
  optional file-name part (`Opts.outputParent`, `Opts.outputFile`);
  `with_file_name` is string concatenation of the parent with the new name,
  and `Path::join` for `--prefix` inserts a separator.
-/

/-- The ASCII whitespace characters recognised by
`str::split_ascii_whitespace` (space, tab, line feed, form feed, carriage
return). -/
def isAsciiWs (c : Char) : Bool :=
  c = ' ' || c = '\t' || c = '\n' || c = '\x0c' || c = '\r'

/-- Worker for `splitAsciiWhitespace`: `acc` holds the characters of the
current word in reverse order. -/
def splitWsAux : List Char → List Char → List String
  | [], [] => []
  | [], acc => [String.mk acc.reverse]
  | c :: cs, acc =>
    if isAsciiWs c then
      match acc with
      | [] => splitWsAux cs []
      | _ => String.mk acc.reverse :: splitWsAux cs []
    else
      splitWsAux cs (c :: acc)

/-- Embedding of `str::split_ascii_whitespace`: the maximal non-empty runs
of non-whitespace characters, in order. -/
def splitAsciiWhitespace (s : String) : List String :=
  splitWsAux s.data []

/-- Worker for `rustLines`: `acc` holds the current line reversed.  A line
terminated by a line feed has one trailing carriage return stripped (the
reversed accumulator's head); the final unterminated line keeps its
characters, exactly as `str::lines` behaves. -/
def rustLinesAux : List Char → List Char → List String
  | [], [] => []
  | [], acc => [String.mk acc.reverse]
  | '\n' :: cs, acc =>
    (match acc with
     | '\r' :: acc2 => String.mk acc2.reverse
     | acc1 => String.mk acc1.reverse) :: rustLinesAux cs []
  | c :: cs, acc => rustLinesAux cs (c :: acc)

/-- Embedding of `str::lines`: split at `\n` or `\r\n` line endings, the
final line ending being optional. -/
def rustLines (s : String) : List String :=
  rustLinesAux s.data []

/-- One step of decimal accumulation, as performed by Rust's
`from_str_radix` for radix 10. -/
def digitStep (acc : Nat) (c : Char) : Nat :=
  acc * 10 + (c.toNat - 48)

/-- A leading plus sign is consumed by Rust's unsigned `from_str`. -/
def stripPlus (cs : List Char) : List Char :=
  match cs with
  | '+' :: rest => rest
  | _ => cs

/-- Digit-by-digit loop of Rust's unsigned `from_str`: each accumulation
step is checked against the type maximum `max`, and a non-digit character
aborts. -/
def parseUintGo (max : Nat) : List Char → Nat → Option Nat
  | [], acc => some acc
  | c :: cs, acc =>
    if c.isDigit then
      if digitStep acc c ≤ max then parseUintGo max cs (digitStep acc c) else none
    else
      none

/-- Embedding of `str::parse` for an unsigned integer type with maximum
value `max` (`u16`: 65535, `u32`: 4294967295): an optional leading `+`, then
at least one decimal digit, with overflow rejected. -/
def parseUint (max : Nat) (s : String) : Option Nat :=
  match stripPlus s.data with
  | [] => none
  | c :: cs => parseUintGo max (c :: cs) 0

/-- A string that reads as a plain non-negative decimal integer literal
(optionally `+`-signed), with no bound: the sense in which the specification
says a field "parses as a non-negative integer". -/
def isIntLit (s : String) : Bool :=
  !(stripPlus s.data).isEmpty && (stripPlus s.data).all Char.isDigit

/-- The numeric value of a non-negative decimal integer literal. -/
def litVal (s : String) : Nat :=
  (stripPlus s.data).foldl digitStep 0

/-- Embedding of `struct FrameConfig`; `size`, `x_hot`, `y_hot` are `u16`
values and `ms_delay` a `u32` value, kept as bounded `Nat`s by the parser. -/
structure FrameConfig where
  size : Nat
  x_hot : Nat
  y_hot : Nat
  path : String
  ms_delay : Nat
deriving DecidableEq

/-- Embedding of `parse_config_line`: split the line at ASCII whitespace,
accept exactly 4 or 5 fields, parse `size`, `x-hot`, `y-hot` as `u16` and
the optional `ms-delay` (defaulting to the token "0") as `u32`, taking the
path field verbatim. -/
def parse_config_line (line : String) : Except String FrameConfig :=
  let cols := splitAsciiWhitespace line
  if cols.length = 4 ∨ cols.length = 5 then
    match parseUint 65535 (cols.getD 0 "") with
    | none => .error "<size> must be an integer"
    | some size =>
      match parseUint 65535 (cols.getD 1 "") with
      | none => .error "<x-hot> must be an integer"
      | some x_hot =>
        match parseUint 65535 (cols.getD 2 "") with
        | none => .error "<y-hot> must be an integer"
        | some y_hot =>
          match parseUint 4294967295 (cols.getD 4 "0") with
          | none => .error "<ms-delay> must be an integer"
          | some ms_delay =>
            .ok { size := size, x_hot := x_hot, y_hot := y_hot,
                  path := cols.getD 3 "", ms_delay := ms_delay }
  else
    .error "Unrecognizable format"

/-- The per-size grouping `HashMap<u16, Vec<FrameConfig>>`, observed only
through lookups: a key maps to the ordered list of frames pushed for it
(empty when the key was never inserted). -/
abbrev SizeMap := Nat → List FrameConfig

/-- The freshly created `HashMap::new()`. -/
def emptySizeMap : SizeMap := fun _ => []

/-- Embedding of `result.entry(frame.size).or_insert_with(Vec::new)`
followed by `push(frame)`: append the frame at the end of its size's list. -/
def insertFrame (m : SizeMap) (f : FrameConfig) : SizeMap :=
  fun s => if s = f.size then m s ++ [f] else m s

/-- The data carried by the "invalid config file ... at line i of p" error
built in `parse_config`: the 0-based index of the offending line and the
field-level cause produced by `parse_config_line`. -/
structure ConfigError where
  lineIndex : Nat
  cause : String
deriving DecidableEq

/-- The enumerated loop of `parse_config`: parse each line in order,
stopping at the first failure with its 0-based index, otherwise inserting
each frame into the grouping map. -/
def parse_config_aux : Nat → List String → SizeMap → Except ConfigError SizeMap
  | _, [], m => .ok m
  | i, l :: rest, m =>
    match parse_config_line l with
    | .error msg => .error { lineIndex := i, cause := msg }
    | .ok f => parse_config_aux (i + 1) rest (insertFrame m f)

/-- Embedding of `parse_config` after the config file has been read: group
the parsed lines by nominal size, or fail at the first bad line. -/
def parse_config (lines : List String) : Except ConfigError SizeMap :=
  parse_config_aux 0 lines emptySizeMap

/-- Whether an `Except` value is the `ok` constructor. -/
def isOkE : Except ε α → Bool
  | .ok _ => true
  | .error _ => false

/-- Whether parsing the given config lines succeeds. -/
def parseOk (lines : List String) : Bool :=
  isOkE (parse_config lines)

/-- The frame a single line contributes, if it parses. -/
def lineFrame? (l : String) : Option FrameConfig :=
  match parse_config_line l with
  | .ok f => some f
  | .error _ => none

/-- The size group the parser's output maps `s` to (empty list when parsing
failed; the theorems always pair this with a `parseOk` hypothesis). -/
def parsedGroup (lines : List String) (s : Nat) : List FrameConfig :=
  match parse_config lines with
  | .ok m => m s
  | .error _ => []

/-- Whether a config line successfully declares the nominal size `s`. -/
def declaresSize (l : String) (s : Nat) : Bool :=
  match parse_config_line l with
  | .ok f => f.size == s
  | .error _ => false

/-- Embedding of `config.get(&opts.size)`: `HashMap::get` returns a vector
exactly when the key was inserted, i.e. when its list is non-empty. -/
def configGet (m : SizeMap) (s : Nat) : Option (List FrameConfig) :=
  if m s = [] then none else some (m s)

/-- Round-half-to-even for rationals: the integer nearest to `q`, ties
going to the even neighbour — the rounding IEEE 754 applies to every
inexact operation result. -/
def rndHalfEven (q : ℚ) : ℤ :=
  if q - ⌊q⌋ < 1 / 2 then ⌊q⌋
  else if 1 / 2 < q - ⌊q⌋ then ⌊q⌋ + 1
  else if Even ⌊q⌋ then ⌊q⌋ else ⌊q⌋ + 1

/-- The value of a non-negative rational correctly rounded to IEEE 754
binary32 (`f32`): a positive value is snapped with round-nearest-ties-even
onto the 24-bit mantissa grid of its binade (spacing `2 ^ (e - 23)` where
`2 ^ e ≤ q < 2 ^ (e + 1)`).  Every value arising in this pipeline — `u32`
inputs, the constant 16.667 and their quotients — is zero or normal and
far from the exponent range's ends, so subnormals, overflow, infinities
and NaN need no modelling. -/
def roundToF32 (q : ℚ) : ℚ :=
  if q = 0 then 0
  else (rndHalfEven (q / 2 ^ (Int.log 2 q - 23)) : ℚ) * 2 ^ (Int.log 2 q - 23)

/-- Embedding of the millisecond-to-jiffy conversion
`(ms as f32 / 16.667).round() as u32` on line 142 of `main.rs`, with the
`f32` steps modelled exactly: the `u32` value and the literal `16.667` are
rounded to binary32, the division is correctly rounded to binary32, and
`f32::round` rounds half away from zero — whose value on the non-negative
quotients arising here is Mathlib's `round` of the quotient's exact value
(above `2 ^ 24` every `f32` is already an integer and both are the
identity).  The final `as u32` cast never saturates for `u32` inputs since
`4294967295 / 16.667 < 2 ^ 32`. -/
def frameRate (ms : Nat) : Nat :=
  (round (roundToF32 (roundToF32 (ms : ℚ) / roundToF32 16.667))).toNat

/-- The specification's conversion formula, `ticks = round(duration_ms /
16.667)`, in exact rational arithmetic — a second definition following the
spec's words, stated for comparison with the `f32` computation the code
actually performs. -/
def specTicks (ms : Nat) : Nat :=
  (round ((ms : ℚ) / 16.667)).toNat

/-- Embedding of `struct Opts` as produced by clap.  The `--output`
`PathBuf` is represented by its parent part (everything `with_file_name`
keeps, including the trailing separator) together with its optional
file-name component; `size` is a `u16` value. -/
structure Opts where
  config : String
  prefixDir : Option String
  outputParent : String
  outputFile : Option String
  size : Nat

/-- The file-system and codec oracle: the outcome of each external
operation the pipeline may attempt.  `configData` is the content of the
config file (`none` when it cannot be opened or read); `decodePng` returns
the opaque decoded image for a path; the remaining fields decide success of
the corresponding operations. -/
structure FsEnv where
  configData : Option String
  openPng : String → Bool
  decodePng : String → Option Nat
  encodePng : Nat → Bool
  createFile : String → Bool
  writeFile : String → Bool

/-- The observable I/O actions of one pipeline run, in order: opening the
config file, opening a source image for decoding, creating the destination
file, and attempting to write the destination file. -/
inductive FsEvent where
  | openConfig (path : String)
  | openImage (path : String)
  | createOutput (path : String)
  | writeOutput (path : String)
deriving DecidableEq

/-- One encoded cursor entry (`IconDirEntry::encode_as_png` result): the
opaque decoded image plus the hotspot attached by
`set_cursor_hotspot`. -/
structure IconEntry where
  image : Nat
  hotspot : Nat × Nat
deriving DecidableEq

/-- Embedding of `riff_ani::ico::IconDir` as built by `create_cur`: a
cursor-typed directory holding its entries in insertion order. -/
structure IconDir where
  entries : List IconEntry
deriving DecidableEq

/-- Embedding of `riff_ani::AniHeader`; all fields are `u32` values. -/
structure AniHeader where
  num_frames : Nat
  num_steps : Nat
  width : Nat
  height : Nat
  frame_rate : Nat
deriving DecidableEq

/-- Embedding of `riff_ani::Ani`. -/
structure Ani where
  header : AniHeader
  frames : List IconDir
deriving DecidableEq

/-- The error outcomes of `main`, mirroring the `anyhow` errors of
`main.rs` (plus `unreachablePanic` for the `unreachable!()` arm and the
`unwrap()` calls, which panic instead of returning an error). -/
inductive BuildError where
  | invalidOutputPath
  | configReadFailed (path : String)
  | configSyntax (e : ConfigError)
  | sizeNotFound
  | missingDelay
  | imageError (msg : String)
  | createFailed (dest : String)
  | writeFailed (dest : String)
  | unreachablePanic
deriving DecidableEq

/-- A successful run's product: the destination path together with the
value serialized into it. -/
inductive BuildOutput where
  | cur (dest : String) (icon : IconDir)
  | ani (dest : String) (a : Ani)
deriving DecidableEq

/-- Embedding of the path resolution in `create_cur`: join the frame's
source path under the optional `--prefix` directory.  (`Path::join`'s
replacement behaviour on an absolute frame path is not modelled; the
resolved string is treated as an opaque key by the oracle.) -/
def resolvePath (opts : Opts) (p : String) : String :=
  match opts.prefixDir with
  | some pre => pre ++ "/" ++ p
  | none => p

/-- Embedding of `create_cur`: open the source PNG, decode it, attach the
hotspot, encode it as a single cursor entry.  The trace records the image
open attempt; the three failure messages mirror the `context` strings of
`main.rs` lines 170-181. -/
def create_cur (env : FsEnv) (opts : Opts) (frame : FrameConfig) :
    List FsEvent × Except String IconDir :=
  let path := resolvePath opts frame.path
  let r : Except String IconDir :=
    if env.openPng path then
      match env.decodePng path with
      | some img =>
        if env.encodePng img then
          .ok { entries := [{ image := img, hotspot := (frame.x_hot, frame.y_hot) }] }
        else .error "cannot encode PNG to CUR/ANI"
      | none => .error ("cannot read PNG file " ++ path)
    else .error ("cannot open PNG file " ++ path)
  ([.openImage path], r)

/-- Embedding of `frames.iter().map(|x| create_cur(x, opts)).collect::<Result<_>>()`:
process the frames in order, stopping at the first failure, and accumulate
the trace of image operations actually attempted. -/
def mapCreateCur (env : FsEnv) (opts : Opts) :
    List FrameConfig → List FsEvent × Except String (List IconDir)
  | [] => ([], .ok [])
  | f :: rest =>
    match create_cur env opts f with
    | (ev, .error msg) => (ev, .error msg)
    | (ev, .ok icon) =>
      match mapCreateCur env opts rest with
      | (evs, .error msg) => (ev ++ evs, .error msg)
      | (evs, .ok icons) => (ev ++ evs, .ok (icon :: icons))

/-- Embedding of `generate_cur`: build the single entry via `create_cur`,
then create `<output-stem>.cur` and write the encoded cursor into it. -/
def generate_cur (env : FsEnv) (opts : Opts) (frame : FrameConfig) :
    List FsEvent × Except BuildError BuildOutput :=
  match opts.outputFile with
  | none => ([], .error .unreachablePanic)
  | some name =>
    match create_cur env opts frame with
    | (evs, .error msg) => (evs, .error (.imageError msg))
    | (evs, .ok icon) =>
      let dest := opts.outputParent ++ name ++ ".cur"
      if env.createFile dest then
        if env.writeFile dest then
          (evs ++ [.createOutput dest, .writeOutput dest], .ok (.cur dest icon))
        else
          (evs ++ [.createOutput dest, .writeOutput dest], .error (.writeFailed dest))
      else
        (evs ++ [.createOutput dest], .error (.createFailed dest))

/-- Embedding of `generate_ani`: reject any zero `ms_delay` up front, build
every frame via `create_cur`, assemble the `Ani` container (frame and step
counts are the `u32`-truncated frame count, dimensions are the requested
size, and the clock rate comes from the first frame), then create
`<output-stem>.ani` and write the container into it. -/
def generate_ani (env : FsEnv) (opts : Opts) (frames : List FrameConfig) :
    List FsEvent × Except BuildError BuildOutput :=
  if frames.any (fun x => x.ms_delay == 0) then
    ([], .error .missingDelay)
  else
    match opts.outputFile with
    | none => ([], .error .unreachablePanic)
    | some name =>
      match frames with
      | [] => ([], .error .unreachablePanic)
      | f0 :: _ =>
        match mapCreateCur env opts frames with
        | (evs, .error msg) => (evs, .error (.imageError msg))
        | (evs, .ok icons) =>
          let ani : Ani :=
            { header :=
                { num_frames := frames.length % 2 ^ 32
                  num_steps := frames.length % 2 ^ 32
                  width := opts.size
                  height := opts.size
                  frame_rate := frameRate f0.ms_delay }
              frames := icons }
          let dest := opts.outputParent ++ name ++ ".ani"
          if env.createFile dest then
            if env.writeFile dest then
              (evs ++ [.createOutput dest, .writeOutput dest], .ok (.ani dest ani))
            else
              (evs ++ [.createOutput dest, .writeOutput dest], .error (.writeFailed dest))
          else
            (evs ++ [.createOutput dest], .error (.createFailed dest))

/-- Embedding of `main` after clap parsing: reject an output path without a
file-name component, read and parse the config, look up the requested size,
and dispatch on the arity of its frame list. -/
def mainRun (env : FsEnv) (opts : Opts) :
    List FsEvent × Except BuildError BuildOutput :=
  if opts.outputFile.isNone then
    ([], .error .invalidOutputPath)
  else
    match env.configData with
    | none => ([.openConfig opts.config], .error (.configReadFailed opts.config))
    | some data =>
      match parse_config (rustLines data) with
      | .error e => ([.openConfig opts.config], .error (.configSyntax e))
      | .ok m =>
        match configGet m opts.size with
        | none => ([.openConfig opts.config], .error .sizeNotFound)
        | some frames =>
          match frames with
          | [] => ([.openConfig opts.config], .error .unreachablePanic)
          | [x] =>
            match generate_cur env opts x with
            | (evs, r) => (.openConfig opts.config :: evs, r)
          | xs =>
            match generate_ani env opts xs with
            | (evs, r) => (.openConfig opts.config :: evs, r)

/-- Every external operation of the oracle succeeds. -/
def FsEnv.allOk (env : FsEnv) : Prop :=
  (∀ p, env.openPng p = true) ∧ (∀ p, (env.decodePng p).isSome = true) ∧
  (∀ i, env.encodePng i = true) ∧ (∀ p, env.createFile p = true) ∧
  (∀ p, env.writeFile p = true)

/-- Decimal accumulation never decreases the accumulator. -/
lemma foldl_digitStep_ge (cs : List Char) : ∀ acc : Nat, acc ≤ cs.foldl digitStep acc := by
  induction cs with
  | nil => intro acc; exact le_refl acc
  | cons c cs ih =>
    intro acc
    have h1 : acc ≤ digitStep acc c := by unfold digitStep; omega
    calc acc ≤ digitStep acc c := h1
      _ ≤ cs.foldl digitStep (digitStep acc c) := ih _
      _ = (c :: cs).foldl digitStep acc := by rw [List.foldl_cons]

/-- The checked accumulation loop of `parseUint` succeeds exactly when the
full decimal value stays within the bound. -/
lemma parseUintGo_spec (max : Nat) (cs : List Char) :
    ∀ acc : Nat, cs.all Char.isDigit = true → acc ≤ max →
    parseUintGo max cs acc =
      if cs.foldl digitStep acc ≤ max then some (cs.foldl digitStep acc) else none := by
  induction cs with
  | nil =>
    intro acc _ hacc
    simp [parseUintGo, hacc]
  | cons c cs ih =>
    intro acc hall hacc
    rw [List.all_cons, Bool.and_eq_true] at hall
    obtain ⟨hc, hcs⟩ := hall
    rw [List.foldl_cons]
    unfold parseUintGo
    rw [if_pos hc]
    by_cases hstep : digitStep acc c ≤ max
    · rw [if_pos hstep]
      exact ih (digitStep acc c) hcs hstep
    · rw [if_neg hstep]
      have : max < cs.foldl digitStep (digitStep acc c) :=
        lt_of_lt_of_le (Nat.lt_of_not_le hstep) (foldl_digitStep_ge cs _)
      rw [if_neg (by omega)]

/-- A non-negative integer literal within the bound parses to its value. -/
lemma parseUint_some (max : Nat) (s : String) (h : isIntLit s = true)
    (hle : litVal s ≤ max) : parseUint max s = some (litVal s) := by
  unfold isIntLit at h
  unfold litVal at hle ⊢
  unfold parseUint
  rcases hsp : stripPlus s.data with _ | ⟨c, cs⟩
  · rw [hsp] at h; simp at h
  · rw [hsp] at h hle
    rw [Bool.and_eq_true] at h
    show parseUintGo max (c :: cs) 0 = _
    rw [parseUintGo_spec max (c :: cs) 0 h.2 (Nat.zero_le max)]
    rw [if_pos hle]

/-- A non-negative integer literal exceeding the bound is rejected, with
the same outcome as a non-numeric field. -/
lemma parseUint_none (max : Nat) (s : String) (h : isIntLit s = true)
    (hgt : max < litVal s) : parseUint max s = none := by
  unfold isIntLit at h
  unfold litVal at hgt
  unfold parseUint
  rcases hsp : stripPlus s.data with _ | ⟨c, cs⟩
  · rfl
  · rw [hsp] at h hgt
    rw [Bool.and_eq_true] at h
    show parseUintGo max (c :: cs) 0 = _
    rw [parseUintGo_spec max (c :: cs) 0 h.2 (Nat.zero_le max)]
    rw [if_neg (by omega)]

/-- C1 (counterexample): the line "70000 0 0 a.png 0" splits into exactly 5
whitespace-separated tokens whose numeric fields all parse as non-negative
integers, yet `parse_config_line` rejects it, because the `size` field is
parsed as a bounded `u16` and 70000 exceeds 65535. -/
theorem C1_counterexample :
    splitAsciiWhitespace "70000 0 0 a.png 0" = ["70000", "0", "0", "a.png", "0"] ∧
    isIntLit "70000" = true ∧ litVal "70000" = 70000 ∧
    isIntLit "0" = true ∧ litVal "0" = 0 ∧
    parse_config_line "70000 0 0 a.png 0" = .error "<size> must be an integer" :=
  ⟨by decide, by decide, by decide, by decide, by decide, by rfl⟩

/-- C1 (amended): for every layout line splitting into exactly 5
whitespace-separated tokens S X Y P D whose S, X, Y, D parse as non-negative
integers with S, X, Y at most 65535 and D at most 4294967295, the parser
produces a frame with nominal size S, hotspot (X, Y), source path P and
delay D; a 4-token line under the same bounds yields delay 0. -/
theorem C1_parse_valid_line (line t0 t1 t2 t3 t4 : String) (S X Y D : Nat) :
    (splitAsciiWhitespace line = [t0, t1, t2, t3, t4] →
      isIntLit t0 = true → litVal t0 = S → S ≤ 65535 →
      isIntLit t1 = true → litVal t1 = X → X ≤ 65535 →
      isIntLit t2 = true → litVal t2 = Y → Y ≤ 65535 →
      isIntLit t4 = true → litVal t4 = D → D ≤ 4294967295 →
      parse_config_line line = .ok ⟨S, X, Y, t3, D⟩) ∧
    (splitAsciiWhitespace line = [t0, t1, t2, t3] →
      isIntLit t0 = true → litVal t0 = S → S ≤ 65535 →
      isIntLit t1 = true → litVal t1 = X → X ≤ 65535 →
      isIntLit t2 = true → litVal t2 = Y → Y ≤ 65535 →
      parse_config_line line = .ok ⟨S, X, Y, t3, 0⟩) := by
  constructor
  · intro hsplit h0 hv0 hb0 h1 hv1 hb1 h2 hv2 hb2 h4 hv4 hb4
    subst hv0 hv1 hv2 hv4
    unfold parse_config_line
    rw [hsplit]
    dsimp only [List.getD_cons_zero, List.getD_cons_succ]
    rw [if_pos (by simp)]
    rw [parseUint_some 65535 t0 h0 hb0, parseUint_some 65535 t1 h1 hb1,
        parseUint_some 65535 t2 h2 hb2, parseUint_some 4294967295 t4 h4 hb4]
  · intro hsplit h0 hv0 hb0 h1 hv1 hb1 h2 hv2 hb2
    subst hv0 hv1 hv2
    unfold parse_config_line
    rw [hsplit]
    dsimp only [List.getD_cons_zero, List.getD_cons_succ, List.getD_nil]
    rw [if_pos (by simp)]
    rw [parseUint_some 65535 t0 h0 hb0, parseUint_some 65535 t1 h1 hb1,
        parseUint_some 65535 t2 h2 hb2]
    rfl

/-- C1 (witness): two concrete lines accepted by the amended statement, one
with a delay field and one without. -/
theorem C1_parse_valid_line_witness :
    parse_config_line "32 8 8 a.png 30" = .ok ⟨32, 8, 8, "a.png", 30⟩ ∧
    parse_config_line "48 1 2 b.png" = .ok ⟨48, 1, 2, "b.png", 0⟩ :=
  ⟨(C1_parse_valid_line "32 8 8 a.png 30" "32" "8" "8" "a.png" "30" 32 8 8 30).1
      (by decide) (by decide) (by decide) (by decide) (by decide) (by decide)
      (by decide) (by decide) (by decide) (by decide) (by decide) (by decide)
      (by decide),
   (C1_parse_valid_line "48 1 2 b.png" "48" "1" "2" "b.png" "" 48 1 2 0).2
      (by decide) (by decide) (by decide) (by decide) (by decide) (by decide)
      (by decide) (by decide) (by decide) (by decide)⟩

/-- C10: the parser's integer fields are bounded: on a line with 4 or 5
whitespace-separated fields, a `size`, `x-hot` or `y-hot` field that is a
non-negative decimal integer greater than 65535, or a delay field greater
than 4294967295, fails with the same field-level "must be an integer" error
a non-numeric field would produce (each later field's statement assumes the
earlier ones parse, since the code reports the first bad field). -/
theorem C10_bounded_fields (line : String) (cols : List String)
    (hsplit : splitAsciiWhitespace line = cols)
    (hlen : cols.length = 4 ∨ cols.length = 5) :
    (isIntLit (cols.getD 0 "") = true → 65535 < litVal (cols.getD 0 "") →
      parse_config_line line = .error "<size> must be an integer") ∧
    ((parseUint 65535 (cols.getD 0 "")).isSome = true →
     isIntLit (cols.getD 1 "") = true → 65535 < litVal (cols.getD 1 "") →
      parse_config_line line = .error "<x-hot> must be an integer") ∧
    ((parseUint 65535 (cols.getD 0 "")).isSome = true →
     (parseUint 65535 (cols.getD 1 "")).isSome = true →
     isIntLit (cols.getD 2 "") = true → 65535 < litVal (cols.getD 2 "") →
      parse_config_line line = .error "<y-hot> must be an integer") ∧
    ((parseUint 65535 (cols.getD 0 "")).isSome = true →
     (parseUint 65535 (cols.getD 1 "")).isSome = true →
     (parseUint 65535 (cols.getD 2 "")).isSome = true →
     isIntLit (cols.getD 4 "0") = true → 4294967295 < litVal (cols.getD 4 "0") →
      parse_config_line line = .error "<ms-delay> must be an integer") := by
  unfold parse_config_line
  rw [hsplit]
  refine ⟨?_, ?_, ?_, ?_⟩
  · intro h0 hgt
    rw [if_pos hlen, parseUint_none 65535 _ h0 hgt]
  · intro hs0 h1 hgt
    obtain ⟨v0, hv0⟩ := Option.isSome_iff_exists.mp hs0
    rw [if_pos hlen, hv0, parseUint_none 65535 _ h1 hgt]
  · intro hs0 hs1 h2 hgt
    obtain ⟨v0, hv0⟩ := Option.isSome_iff_exists.mp hs0
    obtain ⟨v1, hv1⟩ := Option.isSome_iff_exists.mp hs1
    rw [if_pos hlen, hv0, hv1, parseUint_none 65535 _ h2 hgt]
  · intro hs0 hs1 hs2 h4 hgt
    obtain ⟨v0, hv0⟩ := Option.isSome_iff_exists.mp hs0
    obtain ⟨v1, hv1⟩ := Option.isSome_iff_exists.mp hs1
    obtain ⟨v2, hv2⟩ := Option.isSome_iff_exists.mp hs2
    rw [if_pos hlen, hv0, hv1, hv2, parseUint_none 4294967295 _ h4 hgt]

/-- C10 (witness): a size of 70000 and a delay of 4294967296 are each
syntactically valid non-negative integers but are rejected with the
field-level error. -/
theorem C10_bounded_fields_witness :
    (65535 < litVal "70000" ∧
      parse_config_line "70000 1 1 a.png 5" = .error "<size> must be an integer") ∧
    (4294967295 < litVal "4294967296" ∧
      parse_config_line "32 1 1 a.png 4294967296" = .error "<ms-delay> must be an integer") :=
  ⟨⟨by decide,
    (C10_bounded_fields "70000 1 1 a.png 5" ["70000", "1", "1", "a.png", "5"]
        (by decide) (by decide)).1 (by decide) (by decide)⟩,
   ⟨by decide,
    (C10_bounded_fields "32 1 1 a.png 4294967296" ["32", "1", "1", "a.png", "4294967296"]
        (by decide) (by decide)).2.2.2 (by decide) (by decide) (by decide)
        (by decide) (by decide)⟩⟩

/-- A line whose field count is neither 4 nor 5 is a syntax error. -/
lemma parse_config_line_bad_arity (l : String)
    (h4 : (splitAsciiWhitespace l).length ≠ 4)
    (h5 : (splitAsciiWhitespace l).length ≠ 5) :
    parse_config_line l = .error "Unrecognizable format" := by
  unfold parse_config_line
  rw [if_neg (by omega)]

/-- If some line fails to parse, the whole parsing loop fails. -/
lemma parse_config_aux_fails (ls : List String) :
    ∀ (i0 : Nat) (m : SizeMap) (i : Nat) (l : String),
    ls[i]? = some l → isOkE (parse_config_line l) = false →
    isOkE (parse_config_aux i0 ls m) = false := by
  induction ls with
  | nil => intro i0 m i l hl _; simp at hl
  | cons hd tl ih =>
    intro i0 m i l hl hbad
    unfold parse_config_aux
    rcases hhd : parse_config_line hd with msg | f
    · rfl
    · rcases i with _ | k
      · rw [List.getElem?_cons_zero] at hl
        injection hl with hl
        subst hl
        rw [hhd] at hbad
        simp [isOkE] at hbad
      · rw [List.getElem?_cons_succ] at hl
        exact ih (i0 + 1) (insertFrame m f) k l hl hbad

/-- The parsing loop stops at the first failing line, reporting that line's
index (offset by the loop's running counter) and its field-level cause. -/
lemma parse_config_aux_error_first (ls : List String) :
    ∀ (i0 : Nat) (m : SizeMap) (i : Nat) (l msg : String),
    ls[i]? = some l → parse_config_line l = .error msg →
    (∀ j lj, j < i → ls[j]? = some lj → isOkE (parse_config_line lj) = true) →
    parse_config_aux i0 ls m = .error ⟨i0 + i, msg⟩ := by
  induction ls with
  | nil => intro i0 m i l msg hl _ _; simp at hl
  | cons hd tl ih =>
    intro i0 m i l msg hl herr hbefore
    unfold parse_config_aux
    rcases i with _ | k
    · rw [List.getElem?_cons_zero] at hl
      injection hl with hl
      subst hl
      rw [herr]
      simp
    · rw [List.getElem?_cons_succ] at hl
      have hhd0 := hbefore 0 hd (Nat.succ_pos k) List.getElem?_cons_zero
      rcases hhd : parse_config_line hd with msg0 | f
      · rw [hhd] at hhd0; simp [isOkE] at hhd0
      · have hshift : ∀ j lj, j < k → tl[j]? = some lj →
            isOkE (parse_config_line lj) = true := by
          intro j lj hj hlj
          exact hbefore (j + 1) lj (Nat.succ_lt_succ hj)
            (by rw [List.getElem?_cons_succ]; exact hlj)
        have hrec := ih (i0 + 1) (insertFrame m f) k l msg hl herr hshift
        show parse_config_aux (i0 + 1) tl (insertFrame m f) = _
        rw [hrec]
        have harith : i0 + 1 + k = i0 + (k + 1) := by omega
        rw [harith]

/-- A failed parsing loop's reported error always identifies an actual
line: the one at the reported index (offset by the running counter), whose
parse failure is the reported cause. -/
lemma parse_config_aux_error_sound (ls : List String) :
    ∀ (i0 : Nat) (m : SizeMap) (e : ConfigError),
    parse_config_aux i0 ls m = .error e →
    ∃ j l2, e.lineIndex = i0 + j ∧ ls[j]? = some l2 ∧
      parse_config_line l2 = .error e.cause := by
  induction ls with
  | nil => intro i0 m e he; simp [parse_config_aux] at he
  | cons hd tl ih =>
    intro i0 m e he
    unfold parse_config_aux at he
    rcases hhd : parse_config_line hd with msg | f
    · rw [hhd] at he
      injection he with he
      subst he
      exact ⟨0, hd, (Nat.add_zero i0).symm, List.getElem?_cons_zero, hhd⟩
    · rw [hhd] at he
      obtain ⟨j, l2, hidx, hl2, hcause⟩ := ih (i0 + 1) (insertFrame m f) e he
      exact ⟨j + 1, l2, by omega, by rw [List.getElem?_cons_succ]; exact hl2, hcause⟩

/-- C2: a config line with a field count other than 4 or 5 (a blank line
splits into zero fields) is a syntax error; any line-level parse failure
fails the whole parse; the reported error carries the 0-based index of the
first failing line together with its field-level cause; and conversely any
reported error identifies by its 0-based index a line whose parsing fails
with the reported cause. -/
theorem C2_parse_failure_reporting (text : String) (i : Nat) (l : String)
    (hl : (rustLines text)[i]? = some l) :
    (((splitAsciiWhitespace l).length ≠ 4 ∧ (splitAsciiWhitespace l).length ≠ 5) →
        parse_config_line l = .error "Unrecognizable format") ∧
    (∀ msg, parse_config_line l = .error msg → parseOk (rustLines text) = false) ∧
    (∀ msg, parse_config_line l = .error msg →
        (∀ j lj, j < i → (rustLines text)[j]? = some lj →
            isOkE (parse_config_line lj) = true) →
        parse_config (rustLines text) = .error ⟨i, msg⟩) ∧
    (∀ e, parse_config (rustLines text) = .error e →
        ∃ l2, (rustLines text)[e.lineIndex]? = some l2 ∧
          parse_config_line l2 = .error e.cause) := by
  refine ⟨fun h => parse_config_line_bad_arity l h.1 h.2, ?_, ?_, ?_⟩
  · intro msg herr
    unfold parseOk parse_config
    exact parse_config_aux_fails (rustLines text) 0 emptySizeMap i l hl
      (by rw [herr]; rfl)
  · intro msg herr hbefore
    unfold parse_config
    have := parse_config_aux_error_first (rustLines text) 0 emptySizeMap i l msg
      hl herr hbefore
    rw [this]
    rw [Nat.zero_add]
  · intro e he
    obtain ⟨j, l2, hidx, hl2, hcause⟩ :=
      parse_config_aux_error_sound (rustLines text) 0 emptySizeMap e he
    rw [Nat.zero_add] at hidx
    exact ⟨l2, by rw [hidx]; exact hl2, hcause⟩

/-- C2 (witness): a config whose second line is blank fails parsing with
0-based line index 1 and the arity error as the cause. -/
theorem C2_parse_failure_reporting_witness :
    parse_config_line "" = .error "Unrecognizable format" ∧
    parseOk (rustLines "32 8 8 a.png\n\n") = false ∧
    parse_config (rustLines "32 8 8 a.png\n\n") = .error ⟨1, "Unrecognizable format"⟩ := by
  have h := C2_parse_failure_reporting "32 8 8 a.png\n\n" 1 "" (by rfl)
  refine ⟨h.1 (by decide), h.2.1 _ (h.1 (by decide)), h.2.2.1 _ (h.1 (by decide)) ?_⟩
  intro j lj hj hlj
  have hj0 : j = 0 := by omega
  subst hj0
  rw [show (rustLines "32 8 8 a.png\n\n")[0]? = some "32 8 8 a.png" from rfl] at hlj
  injection hlj with hlj
  subst hlj
  decide

/-- Two elements at increasing positions form a two-element sublist. -/
lemma pair_sublist {α : Type} (l : List α) :
    ∀ (i j : Nat) (a b : α), i < j → l[i]? = some a → l[j]? = some b →
    List.Sublist [a, b] l := by
  induction l with
  | nil => intro i j a b _ ha _; simp at ha
  | cons hd tl ih =>
    intro i j a b hij ha hb
    rcases j with _ | j'
    · omega
    · rw [List.getElem?_cons_succ] at hb
      rcases i with _ | i'
      · rw [List.getElem?_cons_zero] at ha
        injection ha with ha
        subst ha
        exact List.Sublist.cons₂ hd
          (List.singleton_sublist.mpr (List.getElem?_mem hb))
      · rw [List.getElem?_cons_succ] at ha
        exact List.Sublist.cons hd (ih i' j' a b (by omega) ha hb)

/-- After a successful parsing loop, each size's list is the initial map's
list followed by the successfully parsed frames of that size in line
order. -/
lemma parse_config_aux_ok_apply (ls : List String) :
    ∀ i0 m0 m, parse_config_aux i0 ls m0 = .ok m →
    ∀ s, m s = m0 s ++ (ls.filterMap lineFrame?).filter (fun f => f.size == s) := by
  induction ls with
  | nil =>
    intro i0 m0 m hok s
    unfold parse_config_aux at hok
    injection hok with hok
    subst hok
    simp
  | cons hd tl ih =>
    intro i0 m0 m hok s
    unfold parse_config_aux at hok
    rcases hhd : parse_config_line hd with msg | f
    · rw [hhd] at hok; exact absurd hok (by simp)
    · rw [hhd] at hok
      have hrec := ih (i0 + 1) (insertFrame m0 f) m hok s
      rw [hrec]
      have hlf : lineFrame? hd = some f := by unfold lineFrame?; rw [hhd]
      rw [List.filterMap_cons, hlf]
      unfold insertFrame
      by_cases hs : f.size = s
      · rw [if_pos hs.symm, List.filter_cons, if_pos (by simp [hs])]
        simp
      · rw [if_neg (fun h => hs h.symm), List.filter_cons,
          if_neg (by simp [hs])]

/-- C3: grouping preserves file order across the whole config text: when
parsing succeeds, any two lines with the same size contribute their frames
to that size's list in the parser's output mapping in line order (the
earlier line's frame occurs before the later line's frame). -/
theorem C3_grouping_preserves_order (text : String) (i j : Nat)
    (li lj : String) (fi fj : FrameConfig)
    (hok : parseOk (rustLines text) = true) (hij : i < j)
    (hli : (rustLines text)[i]? = some li)
    (hlj : (rustLines text)[j]? = some lj)
    (hfi : parse_config_line li = .ok fi)
    (hfj : parse_config_line lj = .ok fj)
    (hsize : fi.size = fj.size) :
    List.Sublist [fi, fj] (parsedGroup (rustLines text) fi.size) := by
  unfold parseOk at hok
  rcases hpc : parse_config (rustLines text) with e | m
  · rw [hpc] at hok; simp [isOkE] at hok
  · unfold parsedGroup
    rw [hpc]
    show List.Sublist [fi, fj] (m fi.size)
    have hchar := parse_config_aux_ok_apply (rustLines text) 0 emptySizeMap m hpc fi.size
    rw [hchar]
    have hpair : List.Sublist [li, lj] (rustLines text) :=
      pair_sublist (rustLines text) i j li lj hij hli hlj
    have hfm : List.Sublist [fi, fj] ((rustLines text).filterMap lineFrame?) := by
      have := List.Sublist.filterMap lineFrame? hpair
      rw [List.filterMap_cons, List.filterMap_cons, List.filterMap_nil] at this
      rw [show lineFrame? li = some fi by unfold lineFrame?; rw [hfi]] at this
      rw [show lineFrame? lj = some fj by unfold lineFrame?; rw [hfj]] at this
      exact this
    have hfilter := List.Sublist.filter (fun f => f.size == fi.size) hfm
    rw [List.filter_cons, List.filter_cons, List.filter_nil] at hfilter
    rw [if_pos (by simp), if_pos (by simp [hsize])] at hfilter
    show List.Sublist [fi, fj] (emptySizeMap fi.size ++ _)
    exact hfilter

/-- C3 (witness): in a config interleaving sizes 32, 48, 32, the two size-32
frames appear in the 32 group in file order. -/
theorem C3_grouping_preserves_order_witness :
    parseOk (rustLines "32 1 1 a.png 30\n48 0 0 c.png\n32 2 2 b.png 40") = true ∧
    List.Sublist [⟨32, 1, 1, "a.png", 30⟩, ⟨32, 2, 2, "b.png", 40⟩]
      (parsedGroup (rustLines "32 1 1 a.png 30\n48 0 0 c.png\n32 2 2 b.png 40") 32) :=
  by
  constructor
  · rfl
  · exact C3_grouping_preserves_order "32 1 1 a.png 30\n48 0 0 c.png\n32 2 2 b.png 40"
      0 2 "32 1 1 a.png 30" "32 2 2 b.png 40"
      ⟨32, 1, 1, "a.png", 30⟩ ⟨32, 2, 2, "b.png", 40⟩
      (by rfl) (by omega) (by rfl) (by rfl) (by rfl) (by rfl) (by rfl)

/-- Under an all-succeeding oracle, `create_cur` yields a single-entry
cursor directory carrying the frame's hotspot. -/
lemma create_cur_allOk (env : FsEnv) (opts : Opts) (f : FrameConfig)
    (h : env.allOk) :
    ∃ img, create_cur env opts f =
      ([.openImage (resolvePath opts f.path)],
       .ok { entries := [{ image := img, hotspot := (f.x_hot, f.y_hot) }] }) := by
  obtain ⟨h1, h2, h3, _, _⟩ := h
  obtain ⟨img, himg⟩ := Option.isSome_iff_exists.mp (h2 (resolvePath opts f.path))
  refine ⟨img, ?_⟩
  simp [create_cur, h1, himg, h3]

/-- When the size lookup is empty, `main` reports the missing size. -/
lemma mainRun_sizeNotFound (env : FsEnv) (opts : Opts) (data : String) (m : SizeMap)
    (hc : env.configData = some data) (ho : opts.outputFile.isNone = false)
    (hp : parse_config (rustLines data) = .ok m) (hg : m opts.size = []) :
    mainRun env opts = ([.openConfig opts.config], .error .sizeNotFound) := by
  simp [mainRun, configGet, ho, hc, hp, hg]

/-- On a one-frame group, `main` defers to `generate_cur`. -/
lemma mainRun_single (env : FsEnv) (opts : Opts) (data : String) (m : SizeMap)
    (x : FrameConfig)
    (hc : env.configData = some data) (ho : opts.outputFile.isNone = false)
    (hp : parse_config (rustLines data) = .ok m) (hg : m opts.size = [x]) :
    mainRun env opts =
      (.openConfig opts.config :: (generate_cur env opts x).1,
       (generate_cur env opts x).2) := by
  rcases hgc : generate_cur env opts x with ⟨evs, r⟩
  simp [mainRun, configGet, ho, hc, hp, hg, hgc]

/-- On a group of two or more frames, `main` defers to `generate_ani`. -/
lemma mainRun_multi (env : FsEnv) (opts : Opts) (data : String) (m : SizeMap)
    (x1 x2 : FrameConfig) (rest : List FrameConfig)
    (hc : env.configData = some data) (ho : opts.outputFile.isNone = false)
    (hp : parse_config (rustLines data) = .ok m)
    (hg : m opts.size = x1 :: x2 :: rest) :
    mainRun env opts =
      (.openConfig opts.config :: (generate_ani env opts (x1 :: x2 :: rest)).1,
       (generate_ani env opts (x1 :: x2 :: rest)).2) := by
  rcases hgc : generate_ani env opts (x1 :: x2 :: rest) with ⟨evs, r⟩
  simp [mainRun, configGet, ho, hc, hp, hg, hgc]

/-- Under an all-succeeding oracle, `generate_cur` writes the single-entry
cursor to the destination stem with the `.cur` extension appended. -/
lemma generate_cur_allOk (env : FsEnv) (opts : Opts) (f : FrameConfig)
    (name : String) (ho : opts.outputFile = some name) (h : env.allOk) :
    ∃ img, generate_cur env opts f =
      ([.openImage (resolvePath opts f.path),
        .createOutput (opts.outputParent ++ name ++ ".cur"),
        .writeOutput (opts.outputParent ++ name ++ ".cur")],
       .ok (.cur (opts.outputParent ++ name ++ ".cur")
         { entries := [{ image := img, hotspot := (f.x_hot, f.y_hot) }] })) := by
  obtain ⟨img, hcc⟩ := create_cur_allOk env opts f h
  obtain ⟨_, _, _, h4, h5⟩ := h
  exact ⟨img, by simp [generate_cur, ho, hcc, h4, h5]⟩

/-- Under an all-succeeding oracle, the per-frame encoding loop succeeds on
every frame and its trace opens exactly the frames' images in order. -/
lemma mapCreateCur_allOk (env : FsEnv) (opts : Opts) (h : env.allOk) :
    ∀ frames : List FrameConfig, ∃ icons,
    mapCreateCur env opts frames =
      (frames.map (fun f => FsEvent.openImage (resolvePath opts f.path)),
       .ok icons) := by
  intro frames
  induction frames with
  | nil => exact ⟨[], rfl⟩
  | cons f rest ih =>
    obtain ⟨icons, hic⟩ := ih
    obtain ⟨img, hcc⟩ := create_cur_allOk env opts f h
    exact ⟨{ entries := [{ image := img, hotspot := (f.x_hot, f.y_hot) }] } :: icons,
      by simp [mapCreateCur, hcc, hic]⟩

/-- Under an all-succeeding oracle and non-zero delays, `generate_ani`
writes the assembled container to the destination stem with the `.ani`
extension appended. -/
lemma generate_ani_allOk (env : FsEnv) (opts : Opts)
    (frames : List FrameConfig) (f0 : FrameConfig) (rest : List FrameConfig)
    (name : String)
    (hf : frames = f0 :: rest)
    (ho : opts.outputFile = some name)
    (hdelays : frames.any (fun x => x.ms_delay == 0) = false)
    (h : env.allOk) :
    ∃ icons, generate_ani env opts frames =
      (frames.map (fun f => FsEvent.openImage (resolvePath opts f.path)) ++
         [.createOutput (opts.outputParent ++ name ++ ".ani"),
          .writeOutput (opts.outputParent ++ name ++ ".ani")],
       .ok (.ani (opts.outputParent ++ name ++ ".ani")
         { header := { num_frames := frames.length % 2 ^ 32,
                       num_steps := frames.length % 2 ^ 32,
                       width := opts.size, height := opts.size,
                       frame_rate := frameRate f0.ms_delay },
           frames := icons })) := by
  subst hf
  obtain ⟨icons, hmc⟩ := mapCreateCur_allOk env opts h (f0 :: rest)
  obtain ⟨_, _, _, h4, h5⟩ := h
  exact ⟨icons, by simp [generate_ani, ho, hdelays, hmc, h4, h5]⟩

/-- C4: with a successfully parsed config, requesting a size no line
declares fails with the size-not-found error; a one-frame group runs the
static path (`generate_cur`) and, when every external operation succeeds,
writes `<output-stem>.cur`, whatever that frame's delay is; a group of two
or more frames runs the animated path (`generate_ani`) and, when every
external operation succeeds and every delay is non-zero, writes
`<output-stem>.ani`. -/
theorem C4_size_dispatch (env : FsEnv) (opts : Opts) (data name : String)
    (hc : env.configData = some data)
    (ho : opts.outputFile = some name)
    (hok : parseOk (rustLines data) = true) :
    (((rustLines data).all (fun l => !declaresSize l opts.size) = true →
        mainRun env opts = ([.openConfig opts.config], .error .sizeNotFound)) ∧
     (∀ f, parsedGroup (rustLines data) opts.size = [f] →
        mainRun env opts =
          (.openConfig opts.config :: (generate_cur env opts f).1,
           (generate_cur env opts f).2) ∧
        (env.allOk →
          ∃ tr icon,
            mainRun env opts =
              (tr, .ok (.cur (opts.outputParent ++ name ++ ".cur") icon)) ∧
            FsEvent.writeOutput (opts.outputParent ++ name ++ ".cur") ∈ tr)) ∧
     (∀ f1 f2 rest, parsedGroup (rustLines data) opts.size = f1 :: f2 :: rest →
        mainRun env opts =
          (.openConfig opts.config :: (generate_ani env opts (f1 :: f2 :: rest)).1,
           (generate_ani env opts (f1 :: f2 :: rest)).2) ∧
        ((f1 :: f2 :: rest).any (fun x => x.ms_delay == 0) = false → env.allOk →
          ∃ tr a,
            mainRun env opts =
              (tr, .ok (.ani (opts.outputParent ++ name ++ ".ani") a)) ∧
            FsEvent.writeOutput (opts.outputParent ++ name ++ ".ani") ∈ tr))) := by
  have hoN : opts.outputFile.isNone = false := by rw [ho]; rfl
  rcases hpc : parse_config (rustLines data) with e | m
  · unfold parseOk at hok; rw [hpc] at hok; simp [isOkE] at hok
  · have hpg : ∀ s, parsedGroup (rustLines data) s = m s := by
      intro s; unfold parsedGroup; rw [hpc]
    refine ⟨?_, ?_, ?_⟩
    · intro hall
      apply mainRun_sizeNotFound env opts data m hc hoN hpc
      rw [parse_config_aux_ok_apply (rustLines data) 0 emptySizeMap m hpc opts.size]
      have hfilter : List.filter (fun f => f.size == opts.size)
          (List.filterMap lineFrame? (rustLines data)) = [] := by
        apply List.filter_eq_nil_iff.mpr
        intro f hf
        obtain ⟨l, hlmem, hlf⟩ := List.mem_filterMap.mp hf
        have hnd := List.all_eq_true.mp hall l hlmem
        unfold declaresSize at hnd
        unfold lineFrame? at hlf
        rcases hpl : parse_config_line l with msg | f2
        · rw [hpl] at hlf; simp at hlf
        · rw [hpl] at hlf hnd
          injection hlf with hlf
          subst hlf
          simpa using hnd
      rw [hfilter]
      rfl
    · intro f hgroup
      rw [hpg] at hgroup
      refine ⟨mainRun_single env opts data m f hc hoN hpc hgroup, ?_⟩
      intro hallOk
      obtain ⟨img, hgc⟩ := generate_cur_allOk env opts f name ho hallOk
      rw [mainRun_single env opts data m f hc hoN hpc hgroup, hgc]
      exact ⟨_, _, rfl, by simp⟩
    · intro f1 f2 rest hgroup
      rw [hpg] at hgroup
      refine ⟨mainRun_multi env opts data m f1 f2 rest hc hoN hpc hgroup, ?_⟩
      intro hdelays hallOk
      obtain ⟨icons, hga⟩ :=
        generate_ani_allOk env opts (f1 :: f2 :: rest) f1 (f2 :: rest) name rfl ho
          hdelays hallOk
      rw [mainRun_multi env opts data m f1 f2 rest hc hoN hpc hgroup, hga]
      exact ⟨_, _, rfl, by simp⟩

/-- A concrete oracle whose every operation succeeds, reading a one-line
config declaring only size 32. -/
def envMini : FsEnv :=
  ⟨some "32 8 8 a.png", fun _ => true, fun _ => some 7, fun _ => true,
   fun _ => true, fun _ => true⟩

/-- Options requesting size 48 with output stem "out". -/
def optsSize48 : Opts := ⟨"cfg", none, "", some "out", 48⟩

/-- C4 (witness): requesting size 48 against a config declaring only size
32 fails with the size-not-found error. -/
theorem C4_size_dispatch_witness :
    (rustLines "32 8 8 a.png").all (fun l => !declaresSize l 48) = true ∧
    mainRun envMini optsSize48 = ([.openConfig "cfg"], .error .sizeNotFound) := by
  constructor
  · decide
  · exact (C4_size_dispatch envMini optsSize48 "32 8 8 a.png" "out"
      rfl rfl (by rfl)).1 (by decide)

/-- C5: when the parsed group for the requested size has two or more frames
and any of them has a zero delay, the run fails with the missing-delay
error right after reading the config: the trace shows no image was opened
or decoded and no output file was touched. -/
theorem C5_missing_delay_fail_fast (env : FsEnv) (opts : Opts) (data : String)
    (frames : List FrameConfig)
    (hc : env.configData = some data)
    (ho : opts.outputFile.isNone = false)
    (hok : parseOk (rustLines data) = true)
    (hg : parsedGroup (rustLines data) opts.size = frames)
    (hlen : 2 ≤ frames.length)
    (hzero : frames.any (fun f => f.ms_delay == 0) = true) :
    mainRun env opts = ([.openConfig opts.config], .error .missingDelay) ∧
    ∀ p, FsEvent.openImage p ∉ (mainRun env opts).1 := by
  rcases hpc : parse_config (rustLines data) with e | m
  · unfold parseOk at hok; rw [hpc] at hok; simp [isOkE] at hok
  · have hgm : m opts.size = frames := by
      rw [← hg]; unfold parsedGroup; rw [hpc]
    rcases frames with _ | ⟨f1, frames2⟩
    · simp at hlen
    rcases frames2 with _ | ⟨f2, rest⟩
    · simp at hlen
    have hga : generate_ani env opts (f1 :: f2 :: rest) = ([], .error .missingDelay) := by
      unfold generate_ani
      rw [if_pos hzero]
    have hmain := mainRun_multi env opts data m f1 f2 rest hc ho hpc hgm
    rw [hmain, hga]
    exact ⟨rfl, by simp⟩

/-- A concrete all-succeeding oracle whose config has two size-32 lines,
the second without a delay. -/
def envDelayZero : FsEnv :=
  ⟨some "32 1 1 a.png 30\n32 2 2 b.png", fun _ => true, fun _ => some 7,
   fun _ => true, fun _ => true, fun _ => true⟩

/-- Options requesting size 32 with output stem "out". -/
def optsSize32 : Opts := ⟨"cfg", none, "", some "out", 32⟩

/-- C5 (witness): a two-frame group whose second frame defaulted to delay 0
fails with the missing-delay error and opens no image. -/
theorem C5_missing_delay_fail_fast_witness :
    (parsedGroup (rustLines "32 1 1 a.png 30\n32 2 2 b.png") 32).any
        (fun f => f.ms_delay == 0) = true ∧
    mainRun envDelayZero optsSize32 = ([.openConfig "cfg"], .error .missingDelay) := by
  constructor
  · decide
  · exact (C5_missing_delay_fail_fast envDelayZero optsSize32
      "32 1 1 a.png 30\n32 2 2 b.png"
      [⟨32, 1, 1, "a.png", 30⟩, ⟨32, 2, 2, "b.png", 0⟩]
      rfl rfl (by rfl) (by decide) (by decide) (by decide)).1

/-- C8: when the output path has no file-name component, the run fails with
the invalid-output-path error and performs no I/O at all: in particular the
config file is neither opened nor parsed. -/
theorem C8_invalid_output_path (env : FsEnv) (opts : Opts)
    (h : opts.outputFile = none) :
    mainRun env opts = ([], .error .invalidOutputPath) ∧
    ∀ p, FsEvent.openConfig p ∉ (mainRun env opts).1 := by
  have hmain : mainRun env opts = ([], .error .invalidOutputPath) := by
    unfold mainRun
    rw [h]
    rfl
  rw [hmain]
  exact ⟨rfl, by simp⟩

/-- Options whose output path carries no file-name component. -/
def optsNoName : Opts := ⟨"cfg", none, "/tmp/", none, 32⟩

/-- C8 (witness): with no file-name component the run stops before any
file-system event. -/
theorem C8_invalid_output_path_witness :
    mainRun envMini optsNoName = ([], .error .invalidOutputPath) :=
  (C8_invalid_output_path envMini optsNoName rfl).1

/-- The nearest-down case of round-half-to-even: the fraction is below one
half. -/
lemma rndHalfEven_eq_floor (q : ℚ) (f : ℤ) (h1 : (f : ℚ) ≤ q)
    (h2 : q < (f : ℚ) + 1 / 2) : rndHalfEven q = f := by
  have hf : ⌊q⌋ = f := Int.floor_eq_iff.mpr ⟨h1, by linarith⟩
  unfold rndHalfEven
  rw [hf, if_pos (by linarith)]

/-- The nearest-up case of round-half-to-even: the fraction is above one
half. -/
lemma rndHalfEven_eq_ceil (q : ℚ) (f : ℤ) (h1 : (f : ℚ) + 1 / 2 < q)
    (h2 : q < (f : ℚ) + 1) : rndHalfEven q = f + 1 := by
  have hf : ⌊q⌋ = f := Int.floor_eq_iff.mpr ⟨by linarith, h2⟩
  unfold rndHalfEven
  rw [hf, if_neg (by linarith), if_pos (by linarith)]

/-- The binade bounds pin the integer base-2 logarithm. -/
lemma int_log_eq (q : ℚ) (e : ℤ) (hq : 0 < q)
    (h1 : (2 : ℚ) ^ e ≤ q) (h2 : q < (2 : ℚ) ^ (e + 1)) : Int.log 2 q = e := by
  have hb : 1 < 2 := by norm_num
  have ha := (Int.zpow_le_iff_le_log hb hq).mp (by exact_mod_cast h1)
  have hc := (Int.lt_zpow_iff_log_lt hb hq).mp (by exact_mod_cast h2)
  omega

/-- Evaluation rule for binary32 rounding, from explicit binade and rounded
mantissa data. -/
lemma roundToF32_val (q v : ℚ) (e m : ℤ) (hq : 0 < q)
    (h1 : (2 : ℚ) ^ e ≤ q) (h2 : q < (2 : ℚ) ^ (e + 1))
    (hm : rndHalfEven (q / 2 ^ (e - 23)) = m)
    (hv : (m : ℚ) * 2 ^ (e - 23) = v) :
    roundToF32 q = v := by
  unfold roundToF32
  rw [if_neg (ne_of_gt hq), int_log_eq q e hq h1 h2, hm, hv]

/-- Zero is exactly representable. -/
lemma roundToF32_zero : roundToF32 0 = 0 := by
  unfold roundToF32
  rw [if_pos rfl]

/-- Mathlib's `round` at `k`, from half-shifted bounds. -/
lemma round_rat_eq (q : ℚ) (k : ℤ) (h1 : (k : ℚ) ≤ q + 1 / 2)
    (h2 : q + 1 / 2 < (k : ℚ) + 1) : round q = k := by
  rw [round_eq]
  exact Int.floor_eq_iff.mpr ⟨h1, by push_cast; linarith⟩

/-- The `f32` constant `16.667` is `8738308 * 2 ^ (-19)`: the scaled value
16.667 * 2 ^ 19 = 8738308.096 rounds down to the mantissa 8738308. -/
lemma litF32_val : roundToF32 (16.667 : ℚ) = 2184577 / 131072 := by
  apply roundToF32_val (16.667 : ℚ) _ 4 8738308 (by norm_num) (by norm_num) (by norm_num)
  · exact rndHalfEven_eq_floor _ 8738308 (by norm_num) (by norm_num)
  · norm_num

/-- The `f32` computation at 30 ms: the quotient rounds to
15099193 * 2 ^ (-23) ≈ 1.799964, giving 2 ticks. -/
lemma frameRate_30 : frameRate 30 = 2 := by
  have ha : roundToF32 ((30 : Nat) : ℚ) = 30 := by
    apply roundToF32_val _ _ 4 15728640 (by norm_num) (by norm_num) (by norm_num)
    · exact rndHalfEven_eq_floor _ 15728640 (by norm_num) (by norm_num)
    · norm_num
  have hd : roundToF32 ((30 : ℚ) / (2184577 / 131072)) = 15099193 / 8388608 := by
    apply roundToF32_val _ _ 0 15099193 (by norm_num) (by norm_num) (by norm_num)
    · exact rndHalfEven_eq_ceil _ 15099192 (by norm_num) (by norm_num)
    · norm_num
  unfold frameRate
  rw [litF32_val, ha, hd, round_rat_eq _ 2 (by norm_num) (by norm_num)]
  rfl

/-- The `f32` computation at 40 ms: the quotient rounds to
10066128 * 2 ^ (-22) ≈ 2.399952, giving 2 ticks. -/
lemma frameRate_40 : frameRate 40 = 2 := by
  have ha : roundToF32 ((40 : Nat) : ℚ) = 40 := by
    apply roundToF32_val _ _ 5 10485760 (by norm_num) (by norm_num) (by norm_num)
    · exact rndHalfEven_eq_floor _ 10485760 (by norm_num) (by norm_num)
    · norm_num
  have hd : roundToF32 ((40 : ℚ) / (2184577 / 131072)) = 629133 / 262144 := by
    apply roundToF32_val _ _ 1 10066128 (by norm_num) (by norm_num) (by norm_num)
    · exact rndHalfEven_eq_floor _ 10066128 (by norm_num) (by norm_num)
    · norm_num
  unfold frameRate
  rw [litF32_val, ha, hd, round_rat_eq _ 2 (by norm_num) (by norm_num)]
  rfl

/-- The `f32` computation at 16 ms: the quotient rounds to
16105805 * 2 ^ (-24) ≈ 0.959981, giving 1 tick. -/
lemma frameRate_16 : frameRate 16 = 1 := by
  have ha : roundToF32 ((16 : Nat) : ℚ) = 16 := by
    apply roundToF32_val _ _ 4 8388608 (by norm_num) (by norm_num) (by norm_num)
    · exact rndHalfEven_eq_floor _ 8388608 (by norm_num) (by norm_num)
    · norm_num
  have hd : roundToF32 ((16 : ℚ) / (2184577 / 131072)) = 16105805 / 16777216 := by
    apply roundToF32_val _ _ (-1) 16105805 (by norm_num) (by norm_num) (by norm_num)
    · exact rndHalfEven_eq_floor _ 16105805 (by norm_num) (by norm_num)
    · norm_num
  unfold frameRate
  rw [litF32_val, ha, hd, round_rat_eq _ 1 (by norm_num) (by norm_num)]
  rfl

/-- The `f32` computation at 0 ms gives 0 ticks. -/
lemma frameRate_0 : frameRate 0 = 0 := by
  unfold frameRate
  rw [litF32_val, show ((0 : Nat) : ℚ) = 0 by norm_num, roundToF32_zero,
    zero_div, roundToF32_zero, round_zero]
  rfl

/-- The `f32` computation at 16692 ms: the exact quotient 16692 / 16.667f32
is ≈ 1001.499981, within half an ulp of the representable value 1001.5, so
the correctly rounded `f32` quotient is 16408576 * 2 ^ (-14) = 1001.5
exactly, and rounding half away from zero gives 1002 ticks. -/
lemma frameRate_16692 : frameRate 16692 = 1002 := by
  have ha : roundToF32 ((16692 : Nat) : ℚ) = 16692 := by
    apply roundToF32_val _ _ 14 8546304 (by norm_num) (by norm_num) (by norm_num)
    · exact rndHalfEven_eq_floor _ 8546304 (by norm_num) (by norm_num)
    · norm_num
  have hd : roundToF32 ((16692 : ℚ) / (2184577 / 131072)) = 2003 / 2 := by
    apply roundToF32_val _ _ 9 16408576 (by norm_num) (by norm_num) (by norm_num)
    · exact rndHalfEven_eq_ceil _ 16408575 (by norm_num) (by norm_num)
    · norm_num
  unfold frameRate
  rw [litF32_val, ha, hd, round_rat_eq _ 1002 (by norm_num) (by norm_num)]
  rfl

/-- The specification's formula equals `k` whenever the half-shifted exact
quotient lies in the unit interval at `k`. -/
lemma specTicks_eq_of_bounds (ms k : Nat)
    (h1 : (k : ℚ) ≤ (ms : ℚ) / 16.667 + 1 / 2)
    (h2 : (ms : ℚ) / 16.667 + 1 / 2 < (k : ℚ) + 1) :
    specTicks ms = k := by
  have hfl : ⌊(ms : ℚ) / 16.667 + 1 / 2⌋ = (k : ℤ) := by
    rw [Int.floor_eq_iff]
    exact ⟨by exact_mod_cast h1, by push_cast; exact h2⟩
  unfold specTicks
  rw [round_eq, hfl]
  rfl

/-- The exact formula at 16692 ms: round(16692 / 16.667) =
round(1001.49997...) = 1001. -/
lemma specTicks_16692 : specTicks 16692 = 1001 :=
  specTicks_eq_of_bounds 16692 1001 (by norm_num) (by norm_num)

/-- A successful animated build's header is assembled from the group's
length (truncated to `u32`), the requested size and the first frame's
converted delay. -/
lemma generate_ani_ok_header (env : FsEnv) (opts : Opts)
    (frames : List FrameConfig) (f0 : FrameConfig) (rest : List FrameConfig)
    (tr : List FsEvent) (dest : String) (a : Ani)
    (hf : frames = f0 :: rest)
    (hga : generate_ani env opts frames = (tr, .ok (.ani dest a))) :
    a.header =
      ⟨frames.length % 2 ^ 32, frames.length % 2 ^ 32, opts.size, opts.size,
       frameRate f0.ms_delay⟩ := by
  subst hf
  unfold generate_ani at hga
  split at hga
  · simp at hga
  · rcases ho : opts.outputFile with _ | name
    · rw [ho] at hga; simp at hga
    · rw [ho] at hga
      dsimp only at hga
      rcases hmc : mapCreateCur env opts (f0 :: rest) with ⟨evs, r⟩
      rw [hmc] at hga
      rcases r with msg | icons
      · simp at hga
      · dsimp only at hga
        rcases hcf : env.createFile (opts.outputParent ++ name ++ ".ani") with _ | _
        · rw [hcf] at hga; simp at hga
        · rw [hcf] at hga
          rcases hwf : env.writeFile (opts.outputParent ++ name ++ ".ani") with _ | _
          · rw [hwf] at hga; simp at hga
          · rw [hwf] at hga
            simp only [if_true, Prod.mk.injEq] at hga
            obtain ⟨-, hr⟩ := hga
            injection hr with hr
            injection hr with _ hr
            rw [← hr]

/-- C6 (counterexample): the tick conversion is performed in `f32`, and at
a delay of 16692 ms the exact quotient 16692 / 16.667f32 ≈ 1001.499981 is
within half an ulp of 1001.5, so the correctly rounded `f32` quotient is
exactly 1001.5 and `f32::round` (half away from zero) gives 1002 ticks —
while the claimed formula round(16692 / 16.667) gives 1001.  The
conversion therefore does not compute round(duration_ms / 16.667). -/
theorem C6_counterexample :
    frameRate 16692 = 1002 ∧ specTicks 16692 = 1001 ∧
    frameRate 16692 ≠ specTicks 16692 :=
  ⟨frameRate_16692, specTicks_16692,
   by rw [frameRate_16692, specTicks_16692]; norm_num⟩

/-- C6 (amended): the millisecond-to-tick conversion is the `f32`
evaluation of round(duration_ms / 16.667), rounding half away from zero;
on the documented values it agrees with the exact formula — 30 ms and 40
ms both give 2 ticks, 16 ms gives 1 tick and 0 ms gives 0 ticks, both in
`f32` and exactly — and in every successful animated build the converter
is applied exactly once, to the first frame's delay, whose conversion is
the single clock rate of the whole container, so later frames' delays
never affect it. -/
theorem C6_timing_f32 (env : FsEnv) (opts : Opts)
    (frames : List FrameConfig) (f0 : FrameConfig) (rest : List FrameConfig)
    (tr : List FsEvent) (dest : String) (a : Ani) :
    frameRate 30 = 2 ∧ frameRate 40 = 2 ∧ frameRate 16 = 1 ∧ frameRate 0 = 0 ∧
    specTicks 30 = 2 ∧ specTicks 40 = 2 ∧ specTicks 16 = 1 ∧ specTicks 0 = 0 ∧
    (frames = f0 :: rest →
      generate_ani env opts frames = (tr, .ok (.ani dest a)) →
      a.header.frame_rate = frameRate f0.ms_delay) := by
  refine ⟨frameRate_30, frameRate_40, frameRate_16, frameRate_0, ?_, ?_, ?_, ?_, ?_⟩
  · exact specTicks_eq_of_bounds 30 2 (by norm_num) (by norm_num)
  · exact specTicks_eq_of_bounds 40 2 (by norm_num) (by norm_num)
  · exact specTicks_eq_of_bounds 16 1 (by norm_num) (by norm_num)
  · exact specTicks_eq_of_bounds 0 0 (by norm_num) (by norm_num)
  · intro hf hga
    rw [generate_ani_ok_header env opts frames f0 rest tr dest a hf hga]

/-- A concrete all-succeeding oracle for direct animated builds. -/
def envAniOk : FsEnv :=
  ⟨some "", fun _ => true, fun _ => some 0, fun _ => true, fun _ => true,
   fun _ => true⟩

/-- Options with output stem "o" requesting size 32. -/
def optsAni : Opts := ⟨"c", none, "", some "o", 32⟩

/-- A two-frame size-32 group with delays 30 and 40. -/
def framesTwo : List FrameConfig := [⟨32, 0, 0, "a", 30⟩, ⟨32, 0, 0, "b", 40⟩]

/-- The cursor directory produced for image token 0 at hotspot (0, 0). -/
def iconZero : IconDir := ⟨[⟨0, (0, 0)⟩]⟩

/-- The container assembled for `framesTwo`. -/
def aniTwo : Ani := ⟨⟨2, 2, 32, 32, frameRate 30⟩, [iconZero, iconZero]⟩

/-- The trace of the `framesTwo` build. -/
def trTwo : List FsEvent :=
  [.openImage "a", .openImage "b", .createOutput "o.ani", .writeOutput "o.ani"]

/-- C6 (witness): the concrete two-frame build with delays 30 and 40 uses
the first frame's conversion, which is 2 ticks, as the clock rate. -/
theorem C6_timing_f32_witness :
    generate_ani envAniOk optsAni framesTwo = (trTwo, .ok (.ani "o.ani" aniTwo)) ∧
    aniTwo.header.frame_rate = frameRate 30 ∧ frameRate 30 = 2 := by
  have hga : generate_ani envAniOk optsAni framesTwo =
      (trTwo, .ok (.ani "o.ani" aniTwo)) := by rfl
  exact ⟨hga,
    (C6_timing_f32 envAniOk optsAni framesTwo ⟨32, 0, 0, "a", 30⟩
      [⟨32, 0, 0, "b", 40⟩] trTwo "o.ani" aniTwo).2.2.2.2.2.2.2.2 rfl hga,
    (C6_timing_f32 envAniOk optsAni framesTwo ⟨32, 0, 0, "a", 30⟩
      [⟨32, 0, 0, "b", 40⟩] trTwo "o.ani" aniTwo).1⟩

/-- C7 (amended): every successful animated build's header has frame count
and step count both equal to the group's length reduced modulo 2 ^ 32 (the
`u32` cast of the length) — hence equal to the number of input frames
whenever the group has fewer than 2 ^ 32 frames — and width and height
equal to the requested nominal size. -/
theorem C7_header_invariant (env : FsEnv) (opts : Opts)
    (frames : List FrameConfig) (tr : List FsEvent) (dest : String) (a : Ani)
    (hga : generate_ani env opts frames = (tr, .ok (.ani dest a))) :
    a.header.num_frames = frames.length % 2 ^ 32 ∧
    a.header.num_steps = a.header.num_frames ∧
    (frames.length < 2 ^ 32 → a.header.num_frames = frames.length) ∧
    a.header.width = opts.size ∧ a.header.height = opts.size := by
  rcases frames with _ | ⟨f0, rest⟩
  · unfold generate_ani at hga
    rcases ho : opts.outputFile with _ | name
    · rw [ho] at hga; simp at hga
    · rw [ho] at hga; simp at hga
  · rw [generate_ani_ok_header env opts (f0 :: rest) f0 rest tr dest a rfl hga]
    exact ⟨rfl, rfl, fun hlt => Nat.mod_eq_of_lt hlt, rfl, rfl⟩

/-- C7 (witness): the two-frame build's header counts both equal 2, its
group's length, and its dimensions equal the requested size 32. -/
theorem C7_header_invariant_witness :
    aniTwo.header.num_frames = framesTwo.length % 2 ^ 32 ∧
    aniTwo.header.num_steps = aniTwo.header.num_frames ∧
    aniTwo.header.width = 32 ∧ aniTwo.header.height = 32 := by
  have h := C7_header_invariant envAniOk optsAni framesTwo trTwo "o.ani" aniTwo
    (by rfl)
  exact ⟨h.1, h.2.1, h.2.2.2.1, h.2.2.2.2⟩

/-- A replicated element on which the predicate fails never satisfies
`any`. -/
lemma replicate_any_false {α : Type} (p : α → Bool) (a : α) (hp : p a = false) :
    ∀ n, (List.replicate n a).any p = false := by
  intro n
  induction n with
  | zero => rfl
  | succ k ih => rw [List.replicate_succ, List.any_cons, hp, ih]; rfl

/-- The per-frame encoding loop on a replicated frame whose encoding
succeeds yields replicated traces and entries. -/
lemma mapCreateCur_replicate (env : FsEnv) (opts : Opts) (f : FrameConfig)
    (e : FsEvent) (icon : IconDir)
    (hcc : create_cur env opts f = ([e], .ok icon)) :
    ∀ n, mapCreateCur env opts (List.replicate n f) =
      (List.replicate n e, .ok (List.replicate n icon)) := by
  intro n
  induction n with
  | zero => rfl
  | succ k ih =>
    rw [List.replicate_succ]
    simp [mapCreateCur, hcc, ih, List.replicate_succ]

/-- A fully successful animated build over a replicated frame. -/
lemma generate_ani_replicate (env : FsEnv) (opts : Opts) (f : FrameConfig)
    (e : FsEvent) (icon : IconDir) (name : String) (k : Nat)
    (ho : opts.outputFile = some name)
    (hd : f.ms_delay ≠ 0)
    (hcc : create_cur env opts f = ([e], .ok icon))
    (hcf : env.createFile (opts.outputParent ++ name ++ ".ani") = true)
    (hwf : env.writeFile (opts.outputParent ++ name ++ ".ani") = true) :
    generate_ani env opts (List.replicate (k + 1) f) =
      (List.replicate (k + 1) e ++
         [.createOutput (opts.outputParent ++ name ++ ".ani"),
          .writeOutput (opts.outputParent ++ name ++ ".ani")],
       .ok (.ani (opts.outputParent ++ name ++ ".ani")
         ⟨⟨(k + 1) % 2 ^ 32, (k + 1) % 2 ^ 32, opts.size, opts.size,
           frameRate f.ms_delay⟩,
          List.replicate (k + 1) icon⟩)) := by
  have hany := replicate_any_false (fun x => x.ms_delay == 0) f (by simp [hd]) (k + 1)
  have hmc := mapCreateCur_replicate env opts f e icon hcc (k + 1)
  rw [List.replicate_succ] at hany hmc ⊢
  simp [generate_ani, ho, hany, hmc, hcf, hwf, List.replicate_succ]

/-- The size-32 frame with delay 30 used in the truncation counterexample. -/
def frameBig : FrameConfig := ⟨32, 0, 0, "a", 30⟩

/-- The container a 2 ^ 32-frame build assembles: its `u32` frame and step
counts wrap around to 0. -/
def aniBig : Ani := ⟨⟨0, 0, 32, 32, frameRate 30⟩, List.replicate (2 ^ 32) iconZero⟩

/-- C7 (counterexample): a group of 2 ^ 32 identical frames builds
successfully, but the header's frame count is 0, not the number of input
frames, because `frames.len() as u32` truncates. -/
theorem C7_counterexample :
    (generate_ani envAniOk optsAni (List.replicate (2 ^ 32) frameBig)).2 =
      .ok (.ani "o.ani" aniBig) ∧
    aniBig.header.num_frames ≠ (List.replicate (2 ^ 32) frameBig).length := by
  constructor
  · have h := generate_ani_replicate envAniOk optsAni frameBig
      (FsEvent.openImage "a") iconZero "o" (2 ^ 32 - 1) rfl (by decide) rfl rfl rfl
    rw [show (2 : Nat) ^ 32 - 1 + 1 = 2 ^ 32 by norm_num] at h
    rw [h, Nat.mod_self]
    rfl
  · rw [show aniBig.header.num_frames = 0 from rfl, List.length_replicate]
    norm_num

/-- `create_cur` always records exactly the attempt to open the source
image. -/
lemma create_cur_fst (env : FsEnv) (opts : Opts) (f : FrameConfig) :
    (create_cur env opts f).1 = [.openImage (resolvePath opts f.path)] := rfl

/-- The per-frame encoding loop's trace consists of image opens only: it
never touches the destination file. -/
lemma mapCreateCur_events (env : FsEnv) (opts : Opts) :
    ∀ frames : List FrameConfig, ∃ ps : List String,
    (mapCreateCur env opts frames).1 = ps.map FsEvent.openImage := by
  intro frames
  induction frames with
  | nil => exact ⟨[], rfl⟩
  | cons f rest ih =>
    obtain ⟨ps, hps⟩ := ih
    rcases hc : create_cur env opts f with ⟨evs0, r0⟩
    have hevs0 : evs0 = [FsEvent.openImage (resolvePath opts f.path)] := by
      rw [← create_cur_fst env opts f, hc]
    subst hevs0
    rcases r0 with msg | icon
    · exact ⟨[resolvePath opts f.path], by simp [mapCreateCur, hc]⟩
    · rcases hm : mapCreateCur env opts rest with ⟨evs1, r1⟩
      rw [hm] at hps
      dsimp only at hps
      rcases r1 with msg | icons
      · exact ⟨resolvePath opts f.path :: ps, by simp [mapCreateCur, hc, hm, hps]⟩
      · exact ⟨resolvePath opts f.path :: ps, by simp [mapCreateCur, hc, hm, hps]⟩

/-- If any frame's encoding fails, the whole collection fails. -/
lemma mapCreateCur_error_of_any (env : FsEnv) (opts : Opts) :
    ∀ frames : List FrameConfig,
    frames.any (fun f => !isOkE (create_cur env opts f).2) = true →
    ∃ msg, (mapCreateCur env opts frames).2 = .error msg := by
  intro frames
  induction frames with
  | nil => intro h; simp at h
  | cons f rest ih =>
    intro h
    rcases hc : create_cur env opts f with ⟨evs0, r0⟩
    rcases r0 with msg | icon
    · exact ⟨msg, by simp [mapCreateCur, hc]⟩
    · rw [List.any_cons] at h
      have hf : (!isOkE (create_cur env opts f).2) = false := by rw [hc]; rfl
      rw [hf, Bool.false_or] at h
      obtain ⟨msg, hmsg⟩ := ih h
      rcases hm : mapCreateCur env opts rest with ⟨evs1, r1⟩
      rw [hm] at hmsg
      rcases r1 with msg1 | icons
      · exact ⟨msg1, by simp [mapCreateCur, hc, hm]⟩
      · simp at hmsg

/-- C9 (amended): if a frame's source image cannot be opened, decoded or
encoded, the build (static or animated) fails and the destination file was
never created — all per-frame decode and encode work precedes creating the
output file; but when the failure is the final container write itself, the
destination file had already been created and the program does not remove
it. -/
theorem C9_no_partial_output (env : FsEnv) (opts : Opts) (frame : FrameConfig)
    (frames : List FrameConfig) :
    ((isOkE (create_cur env opts frame).2 = false →
        isOkE (generate_cur env opts frame).2 = false ∧
        ∀ p, FsEvent.createOutput p ∉ (generate_cur env opts frame).1) ∧
     (frames.any (fun f => !isOkE (create_cur env opts f).2) = true →
        isOkE (generate_ani env opts frames).2 = false ∧
        ∀ p, FsEvent.createOutput p ∉ (generate_ani env opts frames).1) ∧
     (∀ name, opts.outputFile = some name →
        isOkE (create_cur env opts frame).2 = true →
        env.createFile (opts.outputParent ++ name ++ ".cur") = true →
        env.writeFile (opts.outputParent ++ name ++ ".cur") = false →
        isOkE (generate_cur env opts frame).2 = false ∧
        FsEvent.createOutput (opts.outputParent ++ name ++ ".cur")
          ∈ (generate_cur env opts frame).1)) := by
  refine ⟨?_, ?_, ?_⟩
  · intro hbad
    rcases ho : opts.outputFile with _ | name
    · exact ⟨by simp [generate_cur, ho, isOkE], fun p => by simp [generate_cur, ho]⟩
    · rcases hc : create_cur env opts frame with ⟨evs0, r0⟩
      have hevs0 : evs0 = [FsEvent.openImage (resolvePath opts frame.path)] := by
        rw [← create_cur_fst env opts frame, hc]
      rcases r0 with msg | icon
      · exact ⟨by simp [generate_cur, ho, hc, isOkE],
          fun p => by simp [generate_cur, ho, hc, hevs0]⟩
      · rw [hc] at hbad; simp [isOkE] at hbad
  · intro hany
    rcases hdel : frames.any (fun x => x.ms_delay == 0) with _ | _
    · rcases ho : opts.outputFile with _ | name
      · exact ⟨by simp [generate_ani, hdel, ho, isOkE],
          fun p => by simp [generate_ani, hdel, ho]⟩
      · rcases frames with _ | ⟨f0, rest⟩
        · simp at hany
        · obtain ⟨msg, hmsg⟩ := mapCreateCur_error_of_any env opts (f0 :: rest) hany
          obtain ⟨ps, hps⟩ := mapCreateCur_events env opts (f0 :: rest)
          rcases hm : mapCreateCur env opts (f0 :: rest) with ⟨evs1, r1⟩
          rw [hm] at hmsg hps
          dsimp only at hmsg hps
          rcases r1 with msg1 | icons
          · refine ⟨by simp [generate_ani, hdel, ho, hm, isOkE], fun p => ?_⟩
            rw [show (generate_ani env opts (f0 :: rest)).1 = evs1 from by
              simp [generate_ani, hdel, ho, hm]]
            rw [hps]
            simp
          · simp at hmsg
    · exact ⟨by simp [generate_ani, hdel, isOkE],
        fun p => by simp [generate_ani, hdel]⟩
  · intro name ho hok hcf hwf
    rcases hc : create_cur env opts frame with ⟨evs0, r0⟩
    rcases r0 with msg | icon
    · rw [hc] at hok; simp [isOkE] at hok
    · exact ⟨by simp [generate_cur, ho, hc, hcf, hwf, isOkE],
        by simp [generate_cur, ho, hc, hcf, hwf]⟩

/-- An oracle where everything succeeds except writing the destination. -/
def envBadWrite : FsEnv :=
  ⟨some "32 8 8 a.png", fun _ => true, fun _ => some 7, fun _ => true,
   fun _ => true, fun _ => false⟩

/-- C9 (counterexample): with every operation succeeding except the final
container write, the build fails — yet the destination file had already
been created, and the trace contains no operation that removes it (the
model has none, as the code never deletes), so a partial output file
remains after a failure. -/
theorem C9_counterexample :
    (mainRun envBadWrite optsSize32).2 = .error (.writeFailed "out.cur") ∧
    FsEvent.createOutput "out.cur" ∈ (mainRun envBadWrite optsSize32).1 ∧
    ∀ ev ∈ (mainRun envBadWrite optsSize32).1,
      ev = .openConfig "cfg" ∨ ev = .openImage "a.png" ∨
      ev = .createOutput "out.cur" ∨ ev = .writeOutput "out.cur" := by
  refine ⟨by rfl, by decide, by decide⟩

/-- An oracle whose source images cannot be opened. -/
def envBadPng : FsEnv :=
  ⟨some "32 8 8 a.png", fun _ => false, fun _ => none, fun _ => true,
   fun _ => true, fun _ => true⟩

/-- C9 (witness): when the source image cannot be opened, the static build
fails and never creates the destination file. -/
theorem C9_no_partial_output_witness :
    isOkE (create_cur envBadPng optsSize32 ⟨32, 8, 8, "a.png", 0⟩).2 = false ∧
    isOkE (generate_cur envBadPng optsSize32 ⟨32, 8, 8, "a.png", 0⟩).2 = false ∧
    ∀ p, FsEvent.createOutput p ∉
      (generate_cur envBadPng optsSize32 ⟨32, 8, 8, "a.png", 0⟩).1 := by
  have h := (C9_no_partial_output envBadPng optsSize32
    ⟨32, 8, 8, "a.png", 0⟩ []).1 (by decide)
  exact ⟨by decide, h.1, h.2⟩
